import Mathlib

/-!
Verification of the SLADE 2D map renderer core (`src/MapEditor/Renderer/MapRenderer2D.cpp`)
against its natural-language specification.

The embedding models map coordinates and view scales as rationals (the C++ code uses
floating point only for ordering comparisons and linear arithmetic here), timestamps
(`app::runTimer`, `modifiedTime`, `geometryUpdated`, `thingsUpdated`) as naturals, and
the renderer's cached state as explicit state records threaded through the operations.
-/

namespace Slade

/-- Two-dimensional point / vector (`Vec2d` / `glm::vec2` in the source). -/
structure Vec2 where
  x : ℚ
  y : ℚ
deriving DecidableEq, Repr

instance : Inhabited Vec2 := ⟨⟨0, 0⟩⟩

/-- Vector addition, used for applying a move offset to a point. -/
def Vec2.add (a b : Vec2) : Vec2 := ⟨a.x + b.x, a.y + b.y⟩

/-- Axis-aligned bounding box (`BBox` of a sector in the source). -/
structure BBox where
  min : Vec2
  max : Vec2
deriving DecidableEq, Repr

instance : Inhabited BBox := ⟨⟨default, default⟩⟩

/-- Sector visibility classification written into `vis_s_` by `updateVisibility`.
`visible` is the default value 0; the others correspond to the `VIS_LEFT`,
`VIS_ABOVE`, `VIS_RIGHT`, `VIS_BELOW` and `VIS_SMALL` flags. -/
inductive SectorVis where
  | visible
  | left
  | above
  | right
  | below
  | small
deriving DecidableEq, Repr

/-- Map sector as seen by the renderer: its bounding box, its modification time and
the indices of the lines attached to it (`putLines`). -/
structure MSector where
  bbox : BBox
  modifiedTime : ℕ
  lineIdxs : List ℕ
deriving DecidableEq, Repr

instance : Inhabited MSector := ⟨⟨default, 0, []⟩⟩

/-- Map line as seen by the renderer.  Endpoints are vertex indices (`v1`/`v2`);
`special`, `s1`, `s2` and `filtered` feed `lineColour`; `tab` is the line's
direction-tab point (`dirTabPoint`, geometry computed by `MapLine`, carried here
as data); `modifiedTime` is the line's logical modification clock. -/
structure MLine where
  v1 : ℕ
  v2 : ℕ
  special : ℤ
  s1 : Bool
  s2 : Bool
  filtered : Bool
  tab : Vec2
  modifiedTime : ℕ
deriving DecidableEq, Repr

instance : Inhabited MLine := ⟨⟨0, 0, 0, false, false, false, default, 0⟩⟩

/-- Map thing as seen by the renderer: its stable map index, position, angle,
type id, thing id (`id()`) and the five argument slots (`arg(0)`..`arg(4)`). -/
structure MThing where
  index : ℕ
  pos : Vec2
  angle : ℤ
  type : ℤ
  id : ℤ
  args : List ℤ
  filtered : Bool
  modifiedTime : ℕ
deriving DecidableEq, Repr

instance : Inhabited MThing := ⟨⟨0, default, 0, 0, 0, [], false, 0⟩⟩

/-- MapThing::arg(index): returns the argument at [index], or 0 if the index is
out of the 0..4 range (negative indices wrap to a huge unsigned, hence 0). -/
def MThing.arg (t : MThing) (i : ℤ) : ℤ :=
  if 0 ≤ i ∧ i < 5 then t.args.getD i.toNat 0 else 0

/-- Thing-type metadata resolved from the game configuration
(`game::configuration().thingType(...)`): the Dragon capability flag, the
next-in-chain thing type and the next-args encoding rule. -/
structure ThingTypeMeta where
  dragon : Bool
  nextType : ℤ
  nextArgs : ℤ
  radius : ℚ
deriving DecidableEq, Repr

/-- Game configuration collaborator: thing type id → metadata. -/
structure GameConfig where
  thingType : ℤ → ThingTypeMeta

/-- The map model consumed by the renderer: ordered homogeneous collections with
stable indices, plus the structural version counters, plus the thing-collection
queries used by the dragon-path code.

`firstWithId` and `dragonTargets` are modelled from the spec: the renderer calls
`map_->things().firstWithId(id)` (first thing in the whole map sharing the given
identifier) and `map_->putDragonTargets(first, out)` (the set of things reachable
via the game's dragon-target relation, resolved by an external collaborator);
both live in SLADEMap sources not present under `src/`, so they are carried here
as oracle fields of the map model. -/
structure MapModel where
  vertices : List Vec2
  lines : List MLine
  sectors : List MSector
  things : List MThing
  geometryUpdated : ℕ
  thingsUpdated : ℕ
  firstWithId : ℤ → Option MThing
  dragonTargets : MThing → List MThing

/-- Sector lookup by index (`map_->sector(a)`), total via a default. -/
def MapModel.sector (m : MapModel) (a : ℕ) : MSector :=
  m.sectors.getD a default

/-- Position of the vertex with index [v] (`vertex->position()`), total via a
default; the renderer only dereferences valid vertex pointers. -/
def MapModel.pos (m : MapModel) (v : ℕ) : Vec2 :=
  m.vertices.getD v default

/-- Start point of [l] (`line->start()`, i.e. `(x1(), y1())`). -/
def MapModel.lineP1 (m : MapModel) (l : MLine) : Vec2 := m.pos l.v1

/-- End point of [l] (`line->end()`, i.e. `(x2(), y2())`). -/
def MapModel.lineP2 (m : MapModel) (l : MLine) : Vec2 := m.pos l.v2

/-- Midpoint of [l] (`line->getPoint(MapObject::Point::Mid)`). -/
def MapModel.lineMid (m : MapModel) (l : MLine) : Vec2 :=
  ⟨((m.lineP1 l).x + (m.lineP2 l).x) / 2, ((m.lineP1 l).y + (m.lineP2 l).y) / 2⟩

/-!
## Visibility index (`updateVisibility` / `visOK`)
-/

/-- Classification of one sector bounding box against the viewport, exactly the
body of the per-sector loop in `MapRenderer2D::updateVisibility`: start from 0
(visible), then each directional check overwrites the value, and finally the
too-small check (both extents compared against 4 screen pixels using the
horizontal view scale) overwrites everything. -/
def classifySector (scale_x : ℚ) (view_tl view_br : Vec2) (bbox : BBox) : SectorVis :=
  let vis0 := SectorVis.visible
  let vis1 := if bbox.max.x < view_tl.x then SectorVis.left else vis0
  let vis2 := if bbox.max.y < view_tl.y then SectorVis.above else vis1
  let vis3 := if bbox.min.x > view_br.x then SectorVis.right else vis2
  let vis4 := if bbox.min.y > view_br.y then SectorVis.below else vis3
  if (bbox.max.x - bbox.min.x) * scale_x < 4 ∨ (bbox.max.y - bbox.min.y) * scale_x < 4 then
    SectorVis.small
  else vis4

/-- The per-sector write loop of `updateVisibility`: starting at index [a], every
slot of the table is overwritten with the classification of the sector at that
index (the C++ loop writes `vis_s_[a]` for every `a < nSectors`, and the table
length equals `nSectors` after the reset branch). -/
def visRefresh (f : ℕ → SectorVis) : ℕ → List SectorVis → List SectorVis
  | _, [] => []
  | a, _ :: rest => f a :: visRefresh f (a + 1) rest

/-- MapRenderer2D::updateVisibility, sector part: if the sector count changed,
reset the table to `nSectors` zero entries; then classify every sector against
the viewport, overwriting every table slot. -/
def updateVisibility (m : MapModel) (scale : Vec2) (view_tl view_br : Vec2)
    (vis_s : List SectorVis) : List SectorVis :=
  visRefresh (fun a => classifySector scale.x view_tl view_br (m.sector a).bbox) 0
    (if m.sectors.length ≠ vis_s.length then
      List.replicate m.sectors.length SectorVis.visible
    else vis_s)

/-- MapRenderer2D::visOK: the visibility info is valid iff the table size equals
the live sector count. -/
def visOK (m : MapModel) (vis_s : List SectorVis) : Bool :=
  m.sectors.length == vis_s.length

theorem visRefresh_length (f : ℕ → SectorVis) (a : ℕ) (l : List SectorVis) :
    (visRefresh f a l).length = l.length := by
  induction l generalizing a with
  | nil => rfl
  | cons x rest ih => simp [visRefresh, ih]

theorem visRefresh_get? (f : ℕ → SectorVis) (a : ℕ) (l : List SectorVis) (i : ℕ)
    (hi : i < l.length) : (visRefresh f a l).get? i = some (f (a + i)) := by
  induction l generalizing a i with
  | nil => simp at hi
  | cons x rest ih =>
    cases i with
    | zero => rfl
    | succ j =>
      have hj : j < rest.length := by simpa using hi
      have := ih (a + 1) j hj
      simpa [visRefresh, Nat.add_assoc, Nat.add_comm 1 j] using this

theorem updateVisibility_length (m : MapModel) (scale : Vec2) (tl br : Vec2)
    (vis_s : List SectorVis) :
    (updateVisibility m scale tl br vis_s).length = m.sectors.length := by
  unfold updateVisibility
  by_cases h : m.sectors.length = vis_s.length
  · simp [h, visRefresh_length]
  · simp [h, visRefresh_length]

theorem updateVisibility_get? (m : MapModel) (scale : Vec2) (tl br : Vec2)
    (vis_s : List SectorVis) (i : ℕ) (hi : i < m.sectors.length) :
    (updateVisibility m scale tl br vis_s).get? i =
      some (classifySector scale.x tl br (m.sector i).bbox) := by
  unfold updateVisibility
  by_cases h : m.sectors.length = vis_s.length
  · rw [if_neg (by simp [h])]
    have := visRefresh_get?
      (fun a => classifySector scale.x tl br (m.sector a).bbox) 0 vis_s i (h ▸ hi)
    simpa using this
  · rw [if_pos (by exact h)]
    have := visRefresh_get?
      (fun a => classifySector scale.x tl br (m.sector a).bbox) 0
      (List.replicate m.sectors.length SectorVis.visible) i (by simpa using hi)
    simpa using this

/-!
## Zoom-invariant vertex sizing (`vertexRadius`)
-/

/-- MapRenderer2D::vertexRadius: raw size is the configured vertex size divided by
the horizontal view scale; when the view scale is below 1.0 the size shrinks by
the scale again; the result is clamped up to a minimum of `4.0 / vscale` and the
final value is `size * 0.5 * scale` using the caller's scale multiplier. -/
def vertexRadius (vertex_size vscale scale : ℚ) : ℚ :=
  let size := vertex_size / vscale
  let size1 := if vscale < 1 then size * vscale else size
  let minr := 4 / vscale
  let size2 := if size1 < minr then minr else size1
  size2 * (1 / 2) * scale

/-!
## Cached line buffer (`renderLines` / `updateLinesBuffer`)
-/

/-- Base colour chosen by `lineColour`: special, normal (has a first side) or
invalid (no first side). -/
inductive LineColBase where
  | special
  | normal
  | invalid
deriving DecidableEq, Repr

/-- Colour information computed by `lineColour` for a line: the configured base
colour, whether the two-sided alpha dim (0.6) applies, and whether the filtered
alpha dim (0.25) applies. -/
structure LineCol where
  base : LineColBase
  twoSided : Bool
  filtered : Bool
deriving DecidableEq, Repr

/-- lineColour (anonymous-namespace helper): special lines get the special
colour, lines with a first side the normal colour, others the invalid colour;
a second side dims alpha, and a filtered line dims alpha unless the filter is
ignored. -/
def lineColour (l : MLine) (ignore_filter : Bool) : LineCol :=
  { base :=
      if 0 < l.special then LineColBase.special
      else if l.s1 then LineColBase.normal
      else LineColBase.invalid
    twoSided := l.s2
    filtered := l.filtered && !ignore_filter }

/-- One entry staged into the lines buffer by `updateLinesBuffer`
(an `add2d` call): the two endpoints, the line colour, and whether this entry is
a direction tab (drawn with alpha dimmed to 0.6). -/
structure LineBufEntry where
  p1 : Vec2
  p2 : Vec2
  col : LineCol
  dirTab : Bool
deriving DecidableEq, Repr

/-- Contents of the lines buffer after `updateLinesBuffer(show_direction)`: one
segment per map line, followed by its mid-to-tab direction segment when
direction tabs are requested. -/
def buildLinesBuffer (m : MapModel) (show_direction : Bool) : List LineBufEntry :=
  m.lines.flatMap fun l =>
    ⟨m.lineP1 l, m.lineP2 l, lineColour l false, false⟩ ::
      (if show_direction then [⟨m.lineMid l, l.tab, lineColour l false, true⟩] else [])

/-- Cached line-render state of the renderer: `lines_buffer_` (`none` while the
buffer object has not been created), `lines_dirs_`, `n_lines_` and
`lines_updated_`. -/
structure LinesCache where
  buffer : Option (List LineBufEntry)
  lines_dirs : Bool
  n_lines : ℕ
  lines_updated : ℕ
deriving DecidableEq, Repr

/-- Whether `lines_buffer_->buffer().empty()` holds (an absent buffer object is
treated separately by the staleness check). -/
def linesBufferEmpty (st : LinesCache) : Bool :=
  match st.buffer with
  | none => true
  | some b => b.isEmpty

/-- MapData::modifiedSince for lines: some line's `modifiedTime` exceeds [t]. -/
def linesModifiedSince (m : MapModel) (t : ℕ) : Bool :=
  m.lines.any fun l => t < l.modifiedTime

/-- The staleness condition of `renderLines`: buffer absent, or buffer empty, or
direction-tab mode changed, or line count changed, or the map's geometry version
exceeds the cache timestamp, or some line was modified past the cache
timestamp. -/
def linesStale (m : MapModel) (show_direction : Bool) (st : LinesCache) : Prop :=
  st.buffer.isNone = true ∨ linesBufferEmpty st = true ∨ show_direction ≠ st.lines_dirs ∨
    m.lines.length ≠ st.n_lines ∨ st.lines_updated < m.geometryUpdated ∨
    linesModifiedSince m st.lines_updated = true

instance (m : MapModel) (d : Bool) (st : LinesCache) : Decidable (linesStale m d st) := by
  unfold linesStale
  infer_instance

/-- MapRenderer2D::updateLinesBuffer: (re)stage every map line (plus direction
tabs when requested) and push, then record the direction mode, the line count
and the current run timer as the cache timestamp. -/
def updateLinesBuffer (m : MapModel) (now : ℕ) (show_direction : Bool) : LinesCache :=
  { buffer := some (buildLinesBuffer m show_direction)
    lines_dirs := show_direction
    n_lines := m.lines.length
    lines_updated := now }

/-- Result of a `renderLines` call: the cache state it leaves behind, whether it
invoked `updateLinesBuffer`, and whether it issued the buffer draw call. -/
structure RenderLinesResult where
  st : LinesCache
  rebuilt : Bool
  drew : Bool
deriving DecidableEq, Repr

/-- MapRenderer2D::renderLines: return immediately when there are no lines or
alpha is practically invisible; rebuild the cached buffer when stale; then draw
the buffer. -/
def renderLines (m : MapModel) (now : ℕ) (show_direction : Bool) (alpha : ℚ)
    (st : LinesCache) : RenderLinesResult :=
  if m.lines.length = 0 then ⟨st, false, false⟩
  else if alpha ≤ 1 / 100 then ⟨st, false, false⟩
  else if linesStale m show_direction st then
    ⟨updateLinesBuffer m now show_direction, true, true⟩
  else ⟨st, false, true⟩

theorem buildLinesBuffer_not_empty (m : MapModel) (d : Bool) (h : m.lines ≠ []) :
    (buildLinesBuffer m d).isEmpty = false := by
  unfold buildLinesBuffer
  cases hm : m.lines with
  | nil => exact absurd hm h
  | cons l rest => simp

theorem not_linesStale_updateLinesBuffer (m : MapModel) (now : ℕ) (d : Bool)
    (h0 : m.lines.length ≠ 0)
    (hgeom : m.geometryUpdated ≤ now)
    (hmod : ∀ l ∈ m.lines, l.modifiedTime ≤ now) :
    ¬ linesStale m d (updateLinesBuffer m now d) := by
  have hne : m.lines ≠ [] := fun he => h0 (by simp [he])
  intro h
  rcases h with h | h | h | h | h | h
  · simp [updateLinesBuffer] at h
  · simp [updateLinesBuffer, linesBufferEmpty, buildLinesBuffer_not_empty m d hne] at h
  · exact h rfl
  · exact h rfl
  · exact absurd h (Nat.not_lt.mpr hgeom)
  · simp only [updateLinesBuffer, linesModifiedSince, List.any_eq_true,
      decide_eq_true_eq] at h
    obtain ⟨l, hl, hlt⟩ := h
    exact absurd hlt (Nat.not_lt.mpr (hmod l hl))

/-!
## Cached thing buffers (`renderThings` / `updateThingBuffers`)
-/

/-- One thing instance staged into a per-type thing buffer by
`updateThingBuffers` (position, angle, and 0.25 alpha when filtered). -/
structure ThingInst where
  pos : Vec2
  angle : ℤ
  alphaMult : ℚ
deriving DecidableEq, Repr

/-- One per-type thing buffer: the thing type it was set up for and its staged
instances. -/
structure ThingBuf where
  ttype : ℤ
  insts : List ThingInst
deriving DecidableEq, Repr

/-- Cached thing-render state: `thing_buffers_`, `things_updated_` and the
stored force-direction flag `things_angles_`. -/
structure ThingsCache where
  thing_buffers : List ThingBuf
  things_updated : ℕ
  things_angles : Bool
deriving DecidableEq, Repr

/-- Add one thing to the per-type buffer list: append to the existing buffer for
its type if one exists, otherwise create a new buffer at the end (the type→
buffer map of `updateThingBuffers` is built incrementally in the same pass). -/
def addThingToBuffers : List ThingBuf → MThing → List ThingBuf
  | [], t => [⟨t.type, [⟨t.pos, t.angle, if t.filtered then 1 / 4 else 1⟩]⟩]
  | b :: rest, t =>
    if b.ttype = t.type then
      { b with insts := b.insts ++ [⟨t.pos, t.angle, if t.filtered then 1 / 4 else 1⟩] } :: rest
    else b :: addThingToBuffers rest t

/-- Contents of the per-type thing buffers after `updateThingBuffers`. -/
def buildThingBuffers (things : List MThing) : List ThingBuf :=
  things.foldl addThingToBuffers []

/-- MapRenderer2D::updateThingBuffers: clear and regroup all map things into
per-type buffers, push them, and stamp the cache with the current run timer. -/
def updateThingBuffers (m : MapModel) (now : ℕ) (st : ThingsCache) : ThingsCache :=
  { thing_buffers := buildThingBuffers m.things
    things_updated := now
    things_angles := st.things_angles }

/-- Result of a `renderThings` call: the state it leaves behind, whether it
invoked `updateThingBuffers`, and whether it issued any draw call. -/
structure RenderThingsResult where
  st : ThingsCache
  rebuilt : Bool
  drew : Bool
deriving DecidableEq, Repr

/-- MapRenderer2D::renderThings: return immediately when alpha is practically
invisible or there are no things; otherwise store the force-direction flag,
rebuild the thing buffers when absent or stale, and draw them. -/
def renderThings (m : MapModel) (now : ℕ) (alpha : ℚ) (force_dir : Bool)
    (st : ThingsCache) : RenderThingsResult :=
  if alpha ≤ 1 / 100 ∨ m.things.length = 0 then ⟨st, false, false⟩
  else
    let st1 := { st with things_angles := force_dir }
    if st1.thing_buffers.isEmpty ∨ st1.things_updated < m.thingsUpdated then
      ⟨updateThingBuffers m now st1, true, true⟩
    else ⟨st1, false, true⟩

/-!
## Thing path graph (`updateThingPaths`)
-/

/-- Kind of a thing-path edge (`MapRenderer2D::PathType`). -/
inductive PathType where
  | normal
  | normalBoth
  | dragon
  | dragonBoth
deriving DecidableEq, Repr

/-- Modelled from the spec: `ThingPath` (declared in the renderer class header,
which is not under `src/`) is a directed edge `{fromIndex, toIndex, PathKind}`;
its fields default-initialise to zero indices and the Normal kind. -/
structure ThingPath where
  from_index : ℕ
  to_index : ℕ
  type : PathType
deriving DecidableEq, Repr

/-- Decode the chain-target id from [t2]'s arguments using its own type's
next-args rule, starting from the previous value [tid2] of the decode
variable: the low slot (position `nextargs % 10`, one-based) overwrites it
when `nextargs` is non-zero, and `256 *` the high slot (position
`nextargs / 10`, one-based) is added when `nextargs >= 10`. -/
def decodeStep (cfg : GameConfig) (t2 : MThing) (tid2 : ℤ) : ℤ :=
  let na := (cfg.thingType t2.type).nextArgs
  let t2a := if na ≠ 0 then t2.arg (na.tmod 10 - 1) else tid2
  if 10 ≤ na then t2a + 256 * t2.arg (na.tdiv 10 - 1) else t2a

/-- The target id decoded from a thing's arguments with the decode variable at
its initial value -1 (the `tid` computation before the inner loop, and the
`tid2` computation at the first type-matching candidate). -/
def decodeTarget (cfg : GameConfig) (t : MThing) : ℤ :=
  decodeStep cfg t (-1)

/-- State carried through the inner (`b`) loop of the normal-path case: the
`path` variable (pushed on every type match, whether or not it was
re-assigned), the `tid2` variable (also persisting across iterations), and the
accumulated pushes. -/
structure NormalLoopState where
  path : ThingPath
  tid2 : ℤ
  out : List ThingPath
deriving Repr

/-- One iteration of the inner loop of the normal-path case of
`updateThingPaths` for candidate [thing2]: when its type matches the declared
next type, re-decode `tid2` using [thing2]'s own next-args rule (keeping the
previous value for slots the rule does not set), re-assign `path` when either
thing references the other, and push the current `path`. -/
def normalStep (cfg : GameConfig) (thing : MThing) (nexttype tid : ℤ)
    (s : NormalLoopState) (thing2 : MThing) : NormalLoopState :=
  if thing2.type = nexttype then
    let t2b := decodeStep cfg thing2 s.tid2
    let p :=
      if thing2.id = tid then
        ⟨thing.index, thing2.index,
          if t2b = thing.id then PathType.normalBoth else PathType.normal⟩
      else if thing.id = t2b then
        ⟨thing2.index, thing.index, PathType.normal⟩
      else s.path
    ⟨p, t2b, s.out ++ [p]⟩
  else s

/-- The normal-path case of `updateThingPaths` for one thing against the
candidates appearing after it: `path` starts as `{0, 0, Normal}`, `tid` is the
target id decoded from [thing]'s arguments, `tid2` starts at -1. -/
def normalPathsFor (cfg : GameConfig) (thing : MThing) (rest : List MThing) :
    List ThingPath :=
  let tt := cfg.thingType thing.type
  (rest.foldl (normalStep cfg thing tt.nextType (decodeTarget cfg thing))
    ⟨⟨0, 0, PathType.normal⟩, -1, []⟩).out

/-- Whether [t]'s five argument slots reference [targetId]
(`a11 == id2 || ... || a15 == id2` in the source). -/
def dragonRefs (t : MThing) (targetId : ℤ) : Bool :=
  decide (t.arg 0 = targetId) || decide (t.arg 1 = targetId) ||
    decide (t.arg 2 = targetId) || decide (t.arg 3 = targetId) ||
    decide (t.arg 4 = targetId)

/-- The body of the pairwise (`d`, `e`) loop over a dragon-target set: when
either endpoint is dragon-flagged nothing is pushed; otherwise one `ThingPath`
is pushed — directed `e → d` (DragonBoth when mutual) when [t1] references
[t2], directed `d → e` when only [t2] references [t1], and the
default-initialised `dpath` when neither references the other. -/
def dragonPairEdges (cfg : GameConfig) (t1 t2 : MThing) : List ThingPath :=
  let l1to2 := dragonRefs t1 t2.id
  let l2to1 := dragonRefs t2 t1.id
  if (cfg.thingType t1.type).dragon || (cfg.thingType t2.type).dragon then []
  else if l1to2 then
    [⟨t2.index, t1.index, if l2to1 then PathType.dragonBoth else PathType.dragon⟩]
  else if l2to1 then [⟨t1.index, t2.index, PathType.dragon⟩]
  else [⟨0, 0, PathType.normal⟩]

/-- The double loop of the dragon case: all ordered pairs (`d`, `e`) with `e`
after `d` in the dragon-target list, in source order. -/
def dragonClusterEdges (cfg : GameConfig) : List MThing → List ThingPath
  | [] => []
  | d :: rest =>
    rest.flatMap (fun e => dragonPairEdges cfg d e) ++ dragonClusterEdges cfg rest

/-- The dragon case of `updateThingPaths` for one dragon-flagged thing: find the
first thing in the whole map with the same id, push the root edge
`thing → first` as Dragon, then push the pairwise edges over the map's
dragon-target set for `first`. -/
def dragonPathsFor (cfg : GameConfig) (m : MapModel) (thing : MThing) :
    List ThingPath :=
  match m.firstWithId thing.id with
  | none => []
  | some first =>
    ⟨thing.index, first.index, PathType.dragon⟩ ::
      dragonClusterEdges cfg (m.dragonTargets first)

/-- MapRenderer2D::updateThingPaths: walk the candidate list in order; each
dragon-flagged thing contributes its root edge and dragon-cluster pair edges,
each other thing contributes its normal-path pushes against the candidates
after it. -/
def updateThingPaths (cfg : GameConfig) (m : MapModel) : List MThing → List ThingPath
  | [] => []
  | thing :: rest =>
    (if (cfg.thingType thing.type).dragon then dragonPathsFor cfg m thing
     else normalPathsFor cfg thing rest) ++ updateThingPaths cfg m rest

/-!
## Moving-vertices overlay (`renderMovingVertices`)
-/

/-- One step of the first pass of `renderMovingVertices` for one selected
vertex [v]: walking the line table in parallel with the `lines_drawn` flags,
set flag bit 1 on every line whose first endpoint is [v] and bit 2 on every
line whose second endpoint is [v] (the source visits exactly the lines
connected to [v]; lines not connected to [v] are unchanged either way). -/
def markVertexLines (v : ℕ) : List MLine → List (Bool × Bool) → List (Bool × Bool)
  | _, [] => []
  | [], d => d
  | l :: ls, d :: ds =>
    (d.1 || decide (l.v1 = v), d.2 || decide (l.v2 = v)) :: markVertexLines v ls ds

/-- The first pass of `renderMovingVertices`: starting from all-zero flags (one
per map line), process every selection item that resolves to a live vertex. -/
def movingVertexFlags (m : MapModel) (sel : List ℕ) : List (Bool × Bool) :=
  sel.foldl
    (fun drawn s => if s < m.vertices.length then markVertexLines s m.lines drawn else drawn)
    (List.replicate m.lines.length (false, false))

/-- The second pass of `renderMovingVertices`: walk the line table in parallel
with the flags; skip lines with no flag; otherwise stage the line with the
move offset applied exactly to the flagged endpoints, coloured with the
filter-ignoring line colour. -/
def movingLinesPass (m : MapModel) (off : Vec2) :
    List MLine → List (Bool × Bool) → List LineBufEntry
  | [], _ => []
  | _ :: _, [] => []
  | l :: ls, d :: ds =>
    (if d = (false, false) then []
     else
       [⟨if d.1 then (m.lineP1 l).add off else m.lineP1 l,
         if d.2 then (m.lineP2 l).add off else m.lineP2 l,
         lineColour l true, false⟩]) ++ movingLinesPass m off ls ds

/-- The transient line segments staged and drawn by
`MapRenderer2D::renderMovingVertices` for selection [sel] moved by [off]. -/
def movingVertexSegments (m : MapModel) (sel : List ℕ) (off : Vec2) :
    List LineBufEntry :=
  movingLinesPass m off m.lines (movingVertexFlags m sel)

/-- Whether vertex index [v] is a selected live vertex (a selection item that
resolves via `asVertex` and compares pointer-equal to the endpoint). -/
def selectedVertex (m : MapModel) (sel : List ℕ) (v : ℕ) : Bool :=
  decide (v ∈ sel) && decide (v < m.vertices.length)

/-- The per-line flag state after the whole first pass, computed directly:
fold the selection for one line. -/
def flagAt (m : MapModel) (sel : List ℕ) (l : MLine) : Bool × Bool :=
  sel.foldl
    (fun b s =>
      if s < m.vertices.length then (b.1 || decide (l.v1 = s), b.2 || decide (l.v2 = s))
      else b)
    (false, false)

/-- The spec's description of the moving-vertices overlay, stated directly from
its words: every line incident to a selected vertex is drawn, with exactly the
endpoints identical to a selected vertex receiving the offset and the others
staying at their original position. -/
def movingVertexSegmentsSpec (m : MapModel) (sel : List ℕ) (off : Vec2) :
    List LineBufEntry :=
  m.lines.filterMap fun l =>
    if selectedVertex m sel l.v1 || selectedVertex m sel l.v2 then
      some
        ⟨if selectedVertex m sel l.v1 then (m.lineP1 l).add off else m.lineP1 l,
          if selectedVertex m sel l.v2 then (m.lineP2 l).add off else m.lineP2 l,
          lineColour l true, false⟩
    else none

/-!
## Hilight overlay passes (`renderVertexHilight`, `renderLineHilight`,
`renderThingHilight`, `renderFlatHilight`)
-/

/-- Feature lookup by possibly-stale index (`map_->vertex(index)`): an index
outside the collection (negative indices convert to a huge unsigned) yields
"not found". -/
def MapModel.vertex? (m : MapModel) (i : ℤ) : Option Vec2 :=
  if 0 ≤ i then m.vertices.get? i.toNat else none

/-- Feature lookup by possibly-stale index (`map_->line(index)`). -/
def MapModel.line? (m : MapModel) (i : ℤ) : Option MLine :=
  if 0 ≤ i then m.lines.get? i.toNat else none

/-- Feature lookup by possibly-stale index (`map_->thing(index)`). -/
def MapModel.thing? (m : MapModel) (i : ℤ) : Option MThing :=
  if 0 ≤ i then m.things.get? i.toNat else none

/-- Feature lookup by possibly-stale index (`map_->sector(index)`). -/
def MapModel.sector? (m : MapModel) (i : ℤ) : Option MSector :=
  if 0 ≤ i then m.sectors.get? i.toNat else none

/-- Configuration flags consumed by the hilight overlay passes. -/
structure RenderPrefs where
  map_animate_hilight : Bool
  thing_overlay_square : Bool
  sector_hilight_fill : Bool
deriving DecidableEq, Repr

/-- Draw calls issued by the hilight overlay passes, at the granularity of one
backend draw per command, each carrying the (animation-adjusted) fade it is
drawn with. -/
inductive DrawCmd where
  | pointSpriteAt (index : ℕ) (fade : ℚ)
  | segs (ls : List (Vec2 × Vec2)) (fade : ℚ)
  | rectOutline (tl br : Vec2) (fade : ℚ)
  | rectFill (tl br : Vec2) (fade : ℚ)
  | sectorFill (index : ℕ) (fade : ℚ)
  | thingOverlays (ts : List MThing) (fade : ℚ)
deriving DecidableEq, Repr

/-- Fade actually used by a hilight pass: the supplied value, or 1.0 when
hilight animation is disabled. -/
def hilightFade (prefs : RenderPrefs) (fade : ℚ) : ℚ :=
  if prefs.map_animate_hilight then fade else 1

/-- MapRenderer2D::renderVertexHilight: no-op when the vertex lookup fails;
otherwise draw the hilight point sprite for that single vertex out of the
vertices buffer. -/
def renderVertexHilight (m : MapModel) (prefs : RenderPrefs) (index : ℤ) (fade : ℚ) :
    List DrawCmd :=
  match m.vertex? index with
  | none => []
  | some _ => [DrawCmd.pointSpriteAt index.toNat (hilightFade prefs fade)]

/-- MapRenderer2D::renderLineHilight: no-op when the line lookup fails;
otherwise draw the line plus its mid-to-tab direction segment. -/
def renderLineHilight (m : MapModel) (prefs : RenderPrefs) (index : ℤ) (fade : ℚ) :
    List DrawCmd :=
  match m.line? index with
  | none => []
  | some line =>
    [DrawCmd.segs [(m.lineP1 line, m.lineP2 line), (m.lineMid line, line.tab)]
      (hilightFade prefs fade)]

/-- MapRenderer2D::renderThingHilight: no-op when the thing lookup fails;
otherwise draw either the square rect outline + fill, or the point-sprite
overlay for that one thing. -/
def renderThingHilight (cfg : GameConfig) (m : MapModel) (prefs : RenderPrefs)
    (index : ℤ) (fade : ℚ) : List DrawCmd :=
  match m.thing? index with
  | none => []
  | some thing =>
    let f := hilightFade prefs fade
    if prefs.thing_overlay_square then
      let r := (cfg.thingType thing.type).radius
      [DrawCmd.rectOutline ⟨thing.pos.x - r, thing.pos.y - r⟩
          ⟨thing.pos.x + r, thing.pos.y + r⟩ f,
        DrawCmd.rectFill ⟨thing.pos.x - r, thing.pos.y - r⟩
          ⟨thing.pos.x + r, thing.pos.y + r⟩ f]
    else [DrawCmd.thingOverlays [thing] f]

/-- MapRenderer2D::renderFlatHilight: no-op when the sector lookup fails;
otherwise fill the sector polygon when configured, then draw the outline of
every line belonging to the sector (skipping null lines). -/
def renderFlatHilight (m : MapModel) (prefs : RenderPrefs) (index : ℤ) (fade : ℚ) :
    List DrawCmd :=
  match m.sector? index with
  | none => []
  | some sector =>
    let f := hilightFade prefs fade
    (if prefs.sector_hilight_fill then [DrawCmd.sectorFill index.toNat f] else []) ++
      [DrawCmd.segs
        (sector.lineIdxs.filterMap fun li =>
          (m.lines.get? li).map fun l => (m.lineP1 l, m.lineP2 l)) f]

/-!
## Concrete evaluation inputs
-/

/-- Small concrete map used to evaluate the operations on explicit inputs:
three vertices, two lines sharing vertex 1, one sector, one thing. -/
def demoMap : MapModel :=
  { vertices := [⟨0, 0⟩, ⟨10, 0⟩, ⟨10, 10⟩]
    lines :=
      [⟨0, 1, 0, true, false, false, ⟨5, 1⟩, 3⟩,
       ⟨1, 2, 0, true, false, false, ⟨9, 5⟩, 4⟩]
    sectors := [⟨⟨⟨0, 0⟩, ⟨1, 1⟩⟩, 0, [0, 1]⟩]
    things := [⟨0, ⟨1, 1⟩, 0, 1, 100, [200, 0, 0, 0, 0], false, 2⟩]
    geometryUpdated := 5
    thingsUpdated := 5
    firstWithId := fun _ => none
    dragonTargets := fun _ => [] }

/-- Concrete game configuration used for evaluation: type 1 chains to type 2
via argument slot 1, type 2 chains via its own slot 1, type 5 is
dragon-flagged. -/
def demoCfg : GameConfig :=
  { thingType := fun ty =>
      if ty = 1 then ⟨false, 2, 1, 16⟩
      else if ty = 2 then ⟨false, 0, 1, 16⟩
      else if ty = 5 then ⟨true, 0, 0, 16⟩
      else ⟨false, 0, 0, 20⟩ }

/-!
## Claim theorems
-/

/-- C1: for every sector whose bounding box lies entirely to the left of the
viewport and whose screen-space extent (width or height times the view scale)
is below the 4-pixel threshold, `updateVisibility` classifies that sector as
TooSmall and never as Left — the too-small check runs last and overwrites the
directional classification. -/
theorem updateVisibility_tooSmall_overrides_left (m : MapModel) (scale : Vec2)
    (tl br : Vec2) (vis_s : List SectorVis) (i : ℕ) (hi : i < m.sectors.length)
    (hleft : (m.sector i).bbox.max.x < tl.x)
    (hsmall : ((m.sector i).bbox.max.x - (m.sector i).bbox.min.x) * scale.x < 4 ∨
      ((m.sector i).bbox.max.y - (m.sector i).bbox.min.y) * scale.x < 4) :
    (updateVisibility m scale tl br vis_s).get? i = some SectorVis.small ∧
      (updateVisibility m scale tl br vis_s).get? i ≠ some SectorVis.left := by
  have h := updateVisibility_get? m scale tl br vis_s i hi
  have hc : classifySector scale.x tl br (m.sector i).bbox = SectorVis.small := by
    simp only [classifySector]
    rw [if_pos hsmall]
  rw [h, hc]
  exact ⟨rfl, by simp⟩

/-- Witness for C1: unit scale, sector bbox [0,1]×[0,1] entirely left of a
viewport starting at x = 10 and of sub-threshold screen extent. -/
theorem updateVisibility_tooSmall_overrides_left_witness :
    (updateVisibility demoMap ⟨1, 1⟩ ⟨10, 20⟩ ⟨30, 40⟩ []).get? 0 = some SectorVis.small ∧
      (updateVisibility demoMap ⟨1, 1⟩ ⟨10, 20⟩ ⟨30, 40⟩ []).get? 0 ≠ some SectorVis.left :=
  updateVisibility_tooSmall_overrides_left demoMap ⟨1, 1⟩ ⟨10, 20⟩ ⟨30, 40⟩ [] 0
    (by norm_num [demoMap]) (by norm_num [demoMap, MapModel.sector])
    (by norm_num [demoMap, MapModel.sector])

/-- C5: after `updateVisibility` the classification table has exactly one entry
per live sector, and `visOK` returns true iff the table size equals the live
sector count. -/
theorem updateVisibility_size_and_visOK (m : MapModel) (scale tl br : Vec2)
    (vis_s vis' : List SectorVis) :
    (updateVisibility m scale tl br vis_s).length = m.sectors.length ∧
      visOK m (updateVisibility m scale tl br vis_s) = true ∧
      (visOK m vis' = true ↔ vis'.length = m.sectors.length) := by
  refine ⟨updateVisibility_length m scale tl br vis_s, ?_, ?_⟩
  · unfold visOK
    rw [updateVisibility_length]
    simp
  · unfold visOK
    rw [beq_iff_eq]
    exact eq_comm

/-- C10 (implicit): the too-small test multiplies both bbox extents by the
horizontal view scale only, so the vertical view scale never influences any
sector's classification: two runs differing only in the vertical scale produce
identical visibility tables. -/
theorem updateVisibility_ignores_vertical_scale (m : MapModel) (sx sy sy' : ℚ)
    (tl br : Vec2) (vis_s : List SectorVis) :
    updateVisibility m ⟨sx, sy⟩ tl br vis_s = updateVisibility m ⟨sx, sy'⟩ tl br vis_s :=
  rfl

/-- C8: with horizontal view scale 2 and configured vertex size 7,
`vertexRadius` computes raw size 3.5, skips the sub-1.0 shrink, clamps to the
minimum 2.0 without effect, and returns 1.75 · scale; in general the clamp to
`4 / vscale` is applied before the final 0.5 factor and the caller's scale
multiplier. -/
theorem vertexRadius_formula (vs vscale scale : ℚ) :
    vertexRadius 7 2 scale = 7 / 4 * scale ∧
      vertexRadius vs vscale scale =
        max (4 / vscale) (if vscale < 1 then vs / vscale * vscale else vs / vscale) *
          (1 / 2) * scale := by
  constructor
  · simp only [vertexRadius]
    norm_num
  · simp only [vertexRadius]
    rcases lt_or_le (if vscale < 1 then vs / vscale * vscale else vs / vscale)
        (4 / vscale) with hlt | hle
    · rw [if_pos hlt, max_eq_left hlt.le]
    · rw [if_neg (not_lt.mpr hle), max_eq_right hle]

/-- C6: `renderThings` with practically-invisible alpha or on a map with no
things returns immediately: no rebuild, no draw call, and the cached buffers,
cached timestamp and stored force-direction flag are left unchanged. -/
theorem renderThings_fast_reject (m : MapModel) (now : ℕ) (alpha : ℚ)
    (force_dir : Bool) (st : ThingsCache)
    (h : alpha ≤ 1 / 100 ∨ m.things.length = 0) :
    renderThings m now alpha force_dir st = ⟨st, false, false⟩ := by
  unfold renderThings
  rw [if_pos h]

/-- Witness for C6: alpha = 0 on a map that does have a thing. -/
theorem renderThings_fast_reject_witness :
    renderThings demoMap 9 0 true ⟨[], 0, false⟩ = ⟨⟨[], 0, false⟩, false, false⟩ :=
  renderThings_fast_reject demoMap 9 0 true ⟨[], 0, false⟩ (Or.inl (by norm_num))

/-- C9: each hilight overlay pass — vertex, line, thing, flat — is a silent
no-op when its feature lookup returns not-found: no draw command is issued. -/
theorem hilight_noop_on_missing (cfg : GameConfig) (m : MapModel)
    (prefs : RenderPrefs) (iv il it isec : ℤ) (fv fl ft fs : ℚ)
    (hv : m.vertex? iv = none) (hl : m.line? il = none)
    (ht : m.thing? it = none) (hs : m.sector? isec = none) :
    renderVertexHilight m prefs iv fv = [] ∧
      renderLineHilight m prefs il fl = [] ∧
      renderThingHilight cfg m prefs it ft = [] ∧
      renderFlatHilight m prefs isec fs = [] := by
  refine ⟨?_, ?_, ?_, ?_⟩
  · unfold renderVertexHilight
    rw [hv]
  · unfold renderLineHilight
    rw [hl]
  · unfold renderThingHilight
    rw [ht]
  · unfold renderFlatHilight
    rw [hs]

/-- Witness for C9: index 99 is stale for every collection of the demo map. -/
theorem hilight_noop_on_missing_witness :
    renderVertexHilight demoMap ⟨true, false, true⟩ 99 1 = [] ∧
      renderLineHilight demoMap ⟨true, false, true⟩ 99 1 = [] ∧
      renderThingHilight demoCfg demoMap ⟨true, false, true⟩ 99 1 = [] ∧
      renderFlatHilight demoMap ⟨true, false, true⟩ 99 1 = [] :=
  hilight_noop_on_missing demoCfg demoMap ⟨true, false, true⟩ 99 99 99 99 1 1 1 1
    (by decide) (by decide) (by decide) (by decide)

/-- C2: calling `renderLines` twice in a row with the same show-direction
argument and no map mutation between the calls (line count unchanged, geometry
version and every line's modification time at or before the first call's
clock) performs no rebuild on the second call: `updateLinesBuffer` is not
invoked again and the cached buffer, count, direction flag and timestamp are
exactly those left by the first call. -/
theorem renderLines_idempotent (m : MapModel) (t1 t2 : ℕ) (d : Bool) (alpha : ℚ)
    (st : LinesCache)
    (hgeom : m.geometryUpdated ≤ t1)
    (hmod : ∀ l ∈ m.lines, l.modifiedTime ≤ t1)
    (ht : t1 ≤ t2) :
    (renderLines m t2 d alpha (renderLines m t1 d alpha st).st).rebuilt = false ∧
      (renderLines m t2 d alpha (renderLines m t1 d alpha st).st).st =
        (renderLines m t1 d alpha st).st := by
  by_cases h0 : m.lines.length = 0
  · simp [renderLines, h0]
  · by_cases ha : alpha ≤ 1 / 100
    · have hr : ∀ (now : ℕ) (st0 : LinesCache),
          renderLines m now d alpha st0 = ⟨st0, false, false⟩ := by
        intro now st0
        unfold renderLines
        rw [if_neg h0, if_pos ha]
      simp only [hr]
      exact ⟨trivial, trivial⟩
    · by_cases hs : linesStale m d st
      · have hr1 : renderLines m t1 d alpha st = ⟨updateLinesBuffer m t1 d, true, true⟩ := by
          unfold renderLines
          rw [if_neg h0, if_neg ha, if_pos hs]
        have hns := not_linesStale_updateLinesBuffer m t1 d h0 hgeom hmod
        have hr2 : renderLines m t2 d alpha (updateLinesBuffer m t1 d) =
            ⟨updateLinesBuffer m t1 d, false, true⟩ := by
          unfold renderLines
          rw [if_neg h0, if_neg ha, if_neg hns]
        rw [hr1]
        show (renderLines m t2 d alpha (updateLinesBuffer m t1 d)).rebuilt = false ∧
          (renderLines m t2 d alpha (updateLinesBuffer m t1 d)).st =
            updateLinesBuffer m t1 d
        rw [hr2]
        exact ⟨rfl, rfl⟩
      · have hr1 : renderLines m t1 d alpha st = ⟨st, false, true⟩ := by
          unfold renderLines
          rw [if_neg h0, if_neg ha, if_neg hs]
        have hr2 : renderLines m t2 d alpha st = ⟨st, false, true⟩ := by
          unfold renderLines
          rw [if_neg h0, if_neg ha, if_neg hs]
        rw [hr1]
        show (renderLines m t2 d alpha st).rebuilt = false ∧
          (renderLines m t2 d alpha st).st = st
        rw [hr2]
        exact ⟨rfl, rfl⟩

/-- Witness for C2: two consecutive renders of the demo map (geometry version
5, line modification times 3 and 4) at clocks 5 then 6, starting from an empty
cache. -/
theorem renderLines_idempotent_witness :
    (renderLines demoMap 6 true 1 (renderLines demoMap 5 true 1 ⟨none, false, 0, 0⟩).st).rebuilt
        = false ∧
      (renderLines demoMap 6 true 1 (renderLines demoMap 5 true 1 ⟨none, false, 0, 0⟩).st).st =
        (renderLines demoMap 5 true 1 ⟨none, false, 0, 0⟩).st :=
  renderLines_idempotent demoMap 5 6 true 1 ⟨none, false, 0, 0⟩
    (by decide) (by decide) (by decide)

/-- First thing of the two-thing chain scenario: type 1, id 100, argument slot
1 pointing at id 200. -/
def thingA : MThing := ⟨0, ⟨1, 1⟩, 0, 1, 100, [200, 0, 0, 0, 0], false, 2⟩

/-- Second thing of the two-thing chain scenario: type 2, id 200, argument slot
1 pointing back at id 100. -/
def thingB : MThing := ⟨1, ⟨2, 2⟩, 0, 2, 200, [100, 0, 0, 0, 0], false, 2⟩

/-- Dragon-flagged root thing (type 5, id 1) of the dragon-cluster scenario. -/
def dragonRoot : MThing := ⟨0, ⟨0, 0⟩, 0, 5, 1, [0, 0, 0, 0, 0], false, 2⟩

/-- Dragon-cluster connector A (id 10), referencing B (11) and C (12). -/
def connectorA : MThing := ⟨1, ⟨1, 0⟩, 0, 9, 10, [11, 12, 0, 0, 0], false, 2⟩

/-- Dragon-cluster connector B (id 11), referencing A (10) and C (12). -/
def connectorB : MThing := ⟨2, ⟨2, 0⟩, 0, 9, 11, [10, 12, 0, 0, 0], false, 2⟩

/-- Dragon-cluster connector C (id 12), referencing A (10) and B (11). -/
def connectorC : MThing := ⟨3, ⟨3, 0⟩, 0, 9, 12, [10, 11, 0, 0, 0], false, 2⟩

/-- Concrete map containing a dragon root and a three-connector dragon cluster
whose mutual-reference relation is a 3-cycle. -/
def dragonDemoMap : MapModel :=
  { vertices := []
    lines := []
    sectors := []
    things := [dragonRoot, connectorA, connectorB, connectorC]
    geometryUpdated := 0
    thingsUpdated := 0
    firstWithId := fun i => if i = 1 then some dragonRoot else none
    dragonTargets := fun _ => [connectorA, connectorB, connectorC] }

/-- C3: for a candidate sequence of exactly two non-dragon things A then B with
B's type equal to A's declared next-chain type and A's decoded target id equal
to B's identifier, `updateThingPaths` produces exactly one edge A→B: of kind
NormalBoth when B's own decoded target id (using B's next-args rule) equals
A's identifier, and of kind Normal (not NormalBoth) otherwise. -/
theorem updateThingPaths_two_things (cfg : GameConfig) (m : MapModel) (A B : MThing)
    (hAd : (cfg.thingType A.type).dragon = false)
    (hBd : (cfg.thingType B.type).dragon = false)
    (hType : B.type = (cfg.thingType A.type).nextType)
    (hAB : decodeTarget cfg A = B.id) :
    (decodeTarget cfg B = A.id →
      updateThingPaths cfg m [A, B] = [⟨A.index, B.index, PathType.normalBoth⟩]) ∧
      (decodeTarget cfg B ≠ A.id →
        updateThingPaths cfg m [A, B] = [⟨A.index, B.index, PathType.normal⟩]) := by
  have hstep : normalPathsFor cfg A [B] =
      [⟨A.index, B.index,
        if decodeTarget cfg B = A.id then PathType.normalBoth else PathType.normal⟩] := by
    unfold normalPathsFor
    simp only [List.foldl_cons, List.foldl_nil]
    unfold normalStep
    rw [if_pos hType]
    dsimp only
    rw [if_pos hAB.symm]
    rfl
  have h2 : normalPathsFor cfg B [] = [] := by
    unfold normalPathsFor
    simp
  have hmain : updateThingPaths cfg m [A, B] =
      [⟨A.index, B.index,
        if decodeTarget cfg B = A.id then PathType.normalBoth else PathType.normal⟩] := by
    simp [updateThingPaths, hAd, hBd, hstep, h2]
  constructor
  · intro h
    rw [hmain, if_pos h]
  · intro h
    rw [hmain, if_neg h]

/-- Witness for C3: the concrete two-thing mutual chain (ids 100 ↔ 200 via
argument slot 1) yields exactly one NormalBoth edge. -/
theorem updateThingPaths_two_things_witness :
    updateThingPaths demoCfg demoMap [thingA, thingB] = [⟨0, 1, PathType.normalBoth⟩] :=
  (updateThingPaths_two_things demoCfg demoMap thingA thingB (by decide) (by decide)
    (by decide) (by decide)).1 (by decide)

theorem dragonPairEdges_length_le (cfg : GameConfig) (t1 t2 : MThing) :
    (dragonPairEdges cfg t1 t2).length ≤ 1 := by
  simp only [dragonPairEdges]
  split
  · simp
  · split
    · simp
    · split <;> simp

theorem dragonPairs_flat_length_le (cfg : GameConfig) (d : MThing) (rest : List MThing) :
    (rest.flatMap fun e => dragonPairEdges cfg d e).length ≤ rest.length := by
  induction rest with
  | nil => simp
  | cons e es ih =>
    simp only [List.flatMap_cons, List.length_append, List.length_cons]
    have h := dragonPairEdges_length_le cfg d e
    omega

theorem dragonPairEdges_mem (cfg : GameConfig) (t1 t2 : MThing) (p : ThingPath)
    (hp : p ∈ dragonPairEdges cfg t1 t2) (hne : p.from_index ≠ p.to_index) :
    (cfg.thingType t1.type).dragon = false ∧ (cfg.thingType t2.type).dragon = false ∧
      ((p.from_index = t2.index ∧ p.to_index = t1.index) ∨
        (p.from_index = t1.index ∧ p.to_index = t2.index)) := by
  simp only [dragonPairEdges] at hp
  by_cases hd : ((cfg.thingType t1.type).dragon || (cfg.thingType t2.type).dragon) = true
  · rw [if_pos hd] at hp
    simp at hp
  · rw [if_neg hd] at hp
    simp only [Bool.or_eq_true, not_or, Bool.not_eq_true] at hd
    refine ⟨hd.1, hd.2, ?_⟩
    by_cases h12 : dragonRefs t1 t2.id = true
    · rw [if_pos h12] at hp
      simp only [List.mem_singleton] at hp
      left
      rw [hp]
      exact ⟨rfl, rfl⟩
    · rw [if_neg h12] at hp
      by_cases h21 : dragonRefs t2 t1.id = true
      · rw [if_pos h21] at hp
        simp only [List.mem_singleton] at hp
        right
        rw [hp]
        exact ⟨rfl, rfl⟩
      · rw [if_neg h21] at hp
        simp only [List.mem_singleton] at hp
        rw [hp] at hne
        simp at hne

theorem dragonClusterEdges_sound (cfg : GameConfig) (dts : List MThing) :
    ∀ p ∈ dragonClusterEdges cfg dts, p.from_index ≠ p.to_index →
      ∃ t1, t1 ∈ dts ∧ ∃ t2, t2 ∈ dts ∧
        (cfg.thingType t1.type).dragon = false ∧
        (cfg.thingType t2.type).dragon = false ∧
        p.from_index = t1.index ∧ p.to_index = t2.index := by
  induction dts with
  | nil =>
    intro p hp
    simp [dragonClusterEdges] at hp
  | cons d rest ih =>
    intro p hp hne
    simp only [dragonClusterEdges] at hp
    rcases List.mem_append.mp hp with h1 | h2
    · obtain ⟨e, he, hpe⟩ := List.mem_flatMap.mp h1
      obtain ⟨hd1, hd2, hcase⟩ := dragonPairEdges_mem cfg d e p hpe hne
      rcases hcase with ⟨hf, hto⟩ | ⟨hf, hto⟩
      · exact ⟨e, List.mem_cons_of_mem d he, d, List.mem_cons_self d rest, hd2, hd1, hf, hto⟩
      · exact ⟨d, List.mem_cons_self d rest, e, List.mem_cons_of_mem d he, hd1, hd2, hf, hto⟩
    · obtain ⟨t1, ht1, t2, ht2, ha, hb, hf, hto⟩ := ih p h2 hne
      exact ⟨t1, List.mem_cons_of_mem d ht1, t2, List.mem_cons_of_mem d ht2, ha, hb, hf, hto⟩

theorem dragonClusterEdges_length_le (cfg : GameConfig) (dts : List MThing) :
    (dragonClusterEdges cfg dts).length ≤ dts.length * dts.length := by
  induction dts with
  | nil => simp [dragonClusterEdges]
  | cons d rest ih =>
    simp only [dragonClusterEdges, List.length_append, List.length_cons]
    have h1 := dragonPairs_flat_length_le cfg d rest
    nlinarith [ih, h1]

/-- C4: `updateThingPaths` is total (each dragon cluster is processed as a
bounded pairwise pass, never a transitive traversal): every dragon-cluster
edge with distinct endpoints connects a pair of non-dragon-flagged members of
the dragon-target set, the number of pushed pair edges is bounded by the
square of the candidate count, and on a concrete dragon cluster whose
mutual-reference relation is a 3-cycle the computation terminates with exactly
the root edge and the three mutual pair edges. -/
theorem updateThingPaths_dragon_terminates (cfg : GameConfig) (dts : List MThing) :
    (∀ p ∈ dragonClusterEdges cfg dts, p.from_index ≠ p.to_index →
      ∃ t1, t1 ∈ dts ∧ ∃ t2, t2 ∈ dts ∧
        (cfg.thingType t1.type).dragon = false ∧
        (cfg.thingType t2.type).dragon = false ∧
        p.from_index = t1.index ∧ p.to_index = t2.index) ∧
      (dragonClusterEdges cfg dts).length ≤ dts.length * dts.length ∧
      updateThingPaths demoCfg dragonDemoMap [dragonRoot] =
        [⟨0, 0, PathType.dragon⟩, ⟨2, 1, PathType.dragonBoth⟩,
          ⟨3, 1, PathType.dragonBoth⟩, ⟨3, 2, PathType.dragonBoth⟩] :=
  ⟨dragonClusterEdges_sound cfg dts, dragonClusterEdges_length_le cfg dts, by decide⟩

/-- Witness for C4: the DragonBoth edge from connector B to connector A of the
3-cycle cluster connects two non-dragon-flagged members of the target set. -/
theorem updateThingPaths_dragon_terminates_witness :
    ∃ t1, t1 ∈ [connectorA, connectorB, connectorC] ∧
      ∃ t2, t2 ∈ [connectorA, connectorB, connectorC] ∧
        (demoCfg.thingType t1.type).dragon = false ∧
        (demoCfg.thingType t2.type).dragon = false ∧
        (⟨2, 1, PathType.dragonBoth⟩ : ThingPath).from_index = t1.index ∧
        (⟨2, 1, PathType.dragonBoth⟩ : ThingPath).to_index = t2.index :=
  (updateThingPaths_dragon_terminates demoCfg [connectorA, connectorB, connectorC]).1
    ⟨2, 1, PathType.dragonBoth⟩ (by decide) (by decide)

theorem markVertexLines_map (v : ℕ) (lines : List MLine) (g : MLine → Bool × Bool) :
    markVertexLines v lines (lines.map g) =
      lines.map fun l => ((g l).1 || decide (l.v1 = v), (g l).2 || decide (l.v2 = v)) := by
  induction lines with
  | nil => rfl
  | cons l ls ih => simp [markVertexLines, ih]

theorem movingFlags_foldl_map (m : MapModel) (sel : List ℕ) (g : MLine → Bool × Bool) :
    sel.foldl
      (fun drawn s => if s < m.vertices.length then markVertexLines s m.lines drawn else drawn)
      (m.lines.map g) =
      m.lines.map fun l =>
        sel.foldl
          (fun b s =>
            if s < m.vertices.length then (b.1 || decide (l.v1 = s), b.2 || decide (l.v2 = s))
            else b)
          (g l) := by
  induction sel generalizing g with
  | nil => simp
  | cons s ss ih =>
    simp only [List.foldl_cons]
    by_cases hv : s < m.vertices.length
    · rw [if_pos hv, markVertexLines_map, ih]
      simp only [hv, if_true]
    · rw [if_neg hv, ih]
      simp only [hv, if_false]

theorem movingVertexFlags_eq_map (m : MapModel) (sel : List ℕ) :
    movingVertexFlags m sel = m.lines.map (flagAt m sel) := by
  unfold movingVertexFlags flagAt
  have hinit : List.replicate m.lines.length ((false : Bool), (false : Bool)) =
      m.lines.map fun _ => (false, false) := by
    rw [List.map_const']
  rw [hinit, movingFlags_foldl_map]

theorem flagAt_eq (m : MapModel) (sel : List ℕ) (l : MLine) :
    flagAt m sel l = (selectedVertex m sel l.v1, selectedVertex m sel l.v2) := by
  suffices h : ∀ b : Bool × Bool,
      sel.foldl
        (fun b s =>
          if s < m.vertices.length then (b.1 || decide (l.v1 = s), b.2 || decide (l.v2 = s))
          else b) b =
      (b.1 || selectedVertex m sel l.v1, b.2 || selectedVertex m sel l.v2) by
    simpa [flagAt] using h (false, false)
  induction sel with
  | nil =>
    intro b
    simp [selectedVertex]
  | cons s ss ih =>
    intro b
    simp only [List.foldl_cons]
    by_cases hv : s < m.vertices.length
    · rw [if_pos hv, ih]
      have h1 : ∀ (x : Bool) (v : ℕ), ((x || decide (v = s)) || selectedVertex m ss v) =
          (x || selectedVertex m (s :: ss) v) := by
        intro x v
        by_cases hveq : v = s
        · subst hveq
          simp [selectedVertex, hv]
        · simp [selectedVertex, hveq, List.mem_cons, Bool.or_assoc]
      dsimp only
      rw [h1 b.1 l.v1, h1 b.2 l.v2]
    · rw [if_neg hv, ih]
      have h1 : ∀ v : ℕ, selectedVertex m ss v = selectedVertex m (s :: ss) v := by
        intro v
        by_cases hveq : v = s
        · subst hveq
          simp [selectedVertex, hv]
        · simp [selectedVertex, hveq, List.mem_cons]
      rw [h1 l.v1, h1 l.v2]

theorem movingLinesPass_map (m : MapModel) (off : Vec2) (lines : List MLine)
    (g : MLine → Bool × Bool) :
    movingLinesPass m off lines (lines.map g) =
      lines.filterMap fun l =>
        if g l = (false, false) then none
        else
          some ⟨if (g l).1 then (m.lineP1 l).add off else m.lineP1 l,
            if (g l).2 then (m.lineP2 l).add off else m.lineP2 l,
            lineColour l true, false⟩ := by
  induction lines with
  | nil => rfl
  | cons l ls ih =>
    simp only [List.map_cons, movingLinesPass, List.filterMap_cons, ih]
    by_cases h : g l = (false, false)
    · simp [h]
    · simp [h]

/-- C7: the moving-vertices overlay draws, for every line incident to a
selected vertex, the line with exactly the endpoints identical to a selected
vertex offset and the others at their original position; in particular, for
the demo map with lines (A,B) and (B,C), vertex B selected and offset (3,4),
line 1 is drawn as (A, B+offset) and line 2 as (B+offset, C). -/
theorem renderMovingVertices_selected_ends_offset (m : MapModel) (sel : List ℕ) (off : Vec2) :
    movingVertexSegments m sel off = movingVertexSegmentsSpec m sel off ∧
      movingVertexSegments demoMap [1] ⟨3, 4⟩ =
        [⟨⟨0, 0⟩, ⟨13, 4⟩, ⟨LineColBase.normal, false, false⟩, false⟩,
          ⟨⟨13, 4⟩, ⟨10, 10⟩, ⟨LineColBase.normal, false, false⟩, false⟩] := by
  constructor
  · unfold movingVertexSegments movingVertexSegmentsSpec
    rw [movingVertexFlags_eq_map, movingLinesPass_map]
    have hfun : (fun l : MLine =>
        if flagAt m sel l = (false, false) then none
        else
          some (⟨if (flagAt m sel l).1 then (m.lineP1 l).add off else m.lineP1 l,
            if (flagAt m sel l).2 then (m.lineP2 l).add off else m.lineP2 l,
            lineColour l true, false⟩ : LineBufEntry)) =
        (fun l : MLine =>
          if selectedVertex m sel l.v1 || selectedVertex m sel l.v2 then
            some ⟨if selectedVertex m sel l.v1 then (m.lineP1 l).add off else m.lineP1 l,
              if selectedVertex m sel l.v2 then (m.lineP2 l).add off else m.lineP2 l,
              lineColour l true, false⟩
          else none) := by
      funext l
      rw [flagAt_eq]
      cases h1 : selectedVertex m sel l.v1 <;> cases h2 : selectedVertex m sel l.v2 <;> simp
    rw [hfun]
  · norm_num [movingVertexSegments, movingVertexFlags, movingLinesPass, markVertexLines,
      demoMap, Vec2.add, MapModel.lineP1, MapModel.lineP2, MapModel.pos, lineColour,
      List.getD, List.replicate]

end Slade
